import Mathlib

/-
Shallow embedding of b21427138/monadTests.

The repository demonstrates the monad pattern with three container kinds:
  * Example A (src/main.ts): sequences, `Array<string>`, with `bindA` and
    `bindChainA`;
  * Example B (src/main.ts): an optional container, the class `MaybeInteger`,
    with `wrapper`, `unwrapper`, the transforms `add1`, `multiplyBy2`,
    `divideBy2`, `divideBy3`, and `bindB` / `bindChainB`;
  * Example C (src/main.ts): a logging container, the interface
    `loggedValue<T>`, with `wrap` and `bindC`;
  * src/unnamed/part_000: a second optional implementation using the
    sentinel `null` in place of the `MaybeInteger` class (namespace
    `NullImpl` below).

JavaScript numbers are modelled as rationals; on the values these claims
exercise (small integers, 3.14, halving and the integrality tests
`Number.isInteger`) rational arithmetic agrees with IEEE doubles.  The
runtime value `undefined` is modelled explicitly, because `unwrapper`
reads the possibly-unset `value` field of a `MaybeInteger` and feeds it to
the next transform.
-/

/-- A JavaScript value as it flows through Example B: a number or
`undefined`. -/
inductive JSVal where
  | num (q : ℚ)
  | undefined
deriving DecidableEq

/-- `Number.isInteger`: true exactly on integral numbers; false on
`undefined` (and any non-number). -/
def isIntegerJS : JSVal → Bool
  | .num q => q.den == 1
  | .undefined => false

/-- JavaScript `n + r` for a number literal `r`; on `undefined` the source
guard makes this branch unreachable, so the modelled value is immaterial. -/
def jsAdd : JSVal → ℚ → JSVal
  | .num q, r => .num (q + r)
  | .undefined, _ => .undefined

/-- JavaScript `n * r`, as in `jsAdd`. -/
def jsMul : JSVal → ℚ → JSVal
  | .num q, r => .num (q * r)
  | .undefined, _ => .undefined

/-- JavaScript `n / r`, as in `jsAdd`. -/
def jsDiv : JSVal → ℚ → JSVal
  | .num q, r => .num (q / r)
  | .undefined, _ => .undefined

/-- The class `MaybeInteger` of src/main.ts: a flag `isInteger` and a
`value` field that is left `undefined` when the flag is false. -/
structure MaybeInteger where
  isInteger : Bool
  value : JSVal
deriving DecidableEq

/-- The `MaybeInteger` constructor: `new MaybeInteger(n)` sets
`isInteger` to false (leaving `value` as `undefined`) when
`Number.isInteger(n)` fails, and otherwise stores `n`. -/
def MaybeInteger.make (n : JSVal) : MaybeInteger :=
  if isIntegerJS n then ⟨true, n⟩ else ⟨false, .undefined⟩

/-- `wrapper` of src/main.ts (the unit function of Example B). -/
def wrapper (n : JSVal) : MaybeInteger :=
  if !(isIntegerJS n) then MaybeInteger.make .undefined else MaybeInteger.make n

/-- `unwrapper` of src/main.ts: reads the `value` field, which is
`undefined` when the container is the absent variant. -/
def unwrapper (mn : MaybeInteger) : JSVal :=
  mn.value

/-- `add1` of src/main.ts. -/
def add1 (n : JSVal) : MaybeInteger :=
  if !(isIntegerJS n) then MaybeInteger.make .undefined
  else wrapper (jsAdd n 1)

/-- `multiplyBy2` of src/main.ts. -/
def multiplyBy2 (n : JSVal) : MaybeInteger :=
  if !(isIntegerJS n) then MaybeInteger.make .undefined
  else wrapper (jsMul n 2)

/-- `divideBy2` of src/main.ts. -/
def divideBy2 (n : JSVal) : MaybeInteger :=
  if !(isIntegerJS n) || !(isIntegerJS (jsDiv n 2)) then MaybeInteger.make .undefined
  else wrapper (jsDiv n 2)

/-- `divideBy3` of src/main.ts. -/
def divideBy3 (n : JSVal) : MaybeInteger :=
  if !(isIntegerJS n) || !(isIntegerJS (jsDiv n 3)) then MaybeInteger.make .undefined
  else wrapper (jsDiv n 3)

/-- `bindB` of src/main.ts.  The source guard is `mn === undefined`: it
compares the container itself with `undefined`, so the argument is
modelled as `Option MaybeInteger` with `none` standing for the JavaScript
value `undefined` (TypeScript without strict null checks admits it at this
type).  When `mn` is an actual `MaybeInteger` object — absent variant
included — the guard is false and the transform is applied to
`unwrapper mn`, i.e. to the `value` field. -/
def bindB (mn : Option MaybeInteger) (f : JSVal → MaybeInteger) : MaybeInteger :=
  match mn with
  | none => MaybeInteger.make .undefined
  | some m => f (unwrapper m)

/-- `bindChainB` of src/main.ts: the loop
`for f in fs { if (ret === undefined) return new MaybeInteger(undefined); ret = f(unwrapper(ret)) }`
rendered as structural recursion on the transform list.  As in `bindB`,
`none` models the JavaScript value `undefined`; with an empty transform
list the input is returned unchanged. -/
def bindChainB : Option MaybeInteger → List (JSVal → MaybeInteger) → Option MaybeInteger
  | mn, [] => mn
  | none, _ :: _ => some (MaybeInteger.make .undefined)
  | some m, f :: fs => bindChainB (some (f (unwrapper m))) fs

/-- `bindA` of src/main.ts: map the transform over the array, then
`.flat()`. -/
def bindA (startArray : List String) (transformFunction : String → List String) :
    List String :=
  (startArray.map transformFunction).flatten

/-- `bindChainA` of src/main.ts: the loop `ret = ret.flatMap(f)` over the
transform list, rendered as a left fold. -/
def bindChainA (initialArray : List String)
    (allTransformFunctions : List (String → List String)) : List String :=
  allTransformFunctions.foldl (fun ret f => ret.flatMap fun item => f item) initialArray

/-- The interface `loggedValue<T2>` of src/main.ts. -/
structure loggedValue (T : Type) where
  value : T
  log : String
deriving DecidableEq

/-- `wrap` of src/main.ts: the unit function of Example C. -/
def wrap {T : Type} (x : T) : loggedValue T :=
  { value := x, log := "" }

/-- `bindC` of src/main.ts: the value is the transform result value, and
the log is the original log, then the transform log, then the separator
`" \n "` (space, newline, space). -/
def bindC {T1 T2 : Type} (a : loggedValue T1) (f : T1 → loggedValue T2) :
    loggedValue T2 :=
  { value := (f a.value).value
    log := (a.log ++ (f a.value).log) ++ " \n " }

/-- Modelled from the spec: `bindChainC` is announced in the Example C
header comment of src/main.ts (`5. bindChainC(WrappedType, ...allTransformFunctions)`)
but never implemented in the sources.  The spec defines chain-bind as
applying the single-step bind repeatedly, left to right, threading the
container produced by step i into step i+1. -/
def bindChainC {T : Type} (a : loggedValue T) (fs : List (T → loggedValue T)) :
    loggedValue T :=
  fs.foldl bindC a

namespace NullImpl

/-
src/unnamed/part_000: the optional monad with the sentinel `null`.
Values of monadic type are `number | null`, modelled as `Option ℚ` with
`none` standing for `null`.
-/

/-- `wrapper` of src/unnamed/part_000: the identity. -/
def wrapper (n : Option ℚ) : Option ℚ :=
  n

/-- `add1` of src/unnamed/part_000: `null` or a non-integer gives `null`,
otherwise `n + 1`. -/
def add1 : Option ℚ → Option ℚ
  | none => none
  | some q => if q.den ≠ 1 then none else some (q + 1)

/-- `multiplyBy2` of src/unnamed/part_000. -/
def multiplyBy2 : Option ℚ → Option ℚ
  | none => none
  | some q => if q.den ≠ 1 then none else some (q * 2)

/-- `divideBy2` of src/unnamed/part_000: `null`, a non-integer, or an odd
integer gives `null`, otherwise `n / 2`. -/
def divideBy2 : Option ℚ → Option ℚ
  | none => none
  | some q => if q.den ≠ 1 ∨ (q / 2).den ≠ 1 then none else some (q / 2)

/-- `bindB` of src/unnamed/part_000: return `null` on `null`, otherwise
apply the transform to the held number. -/
def bindB (mn : Option ℚ) (f : Option ℚ → Option ℚ) : Option ℚ :=
  match mn with
  | none => none
  | some q => f (some q)

end NullImpl

/-
Helper lemmas.
-/

/-- A JavaScript value passing the `Number.isInteger` test is a number with
an integral rational behind it. -/
theorem holdsInt_of_isIntegerJS {n : JSVal} (h : isIntegerJS n = true) :
    ∃ k : ℤ, n = .num (k : ℚ) := by
  cases n with
  | num q =>
      refine ⟨q.num, ?_⟩
      have hden : q.den = 1 := by simpa [isIntegerJS] using h
      rw [(Rat.den_eq_one_iff q).mp hden]
  | undefined => simp [isIntegerJS] at h

/-- Adding one to an integral rational stays integral. -/
theorem den_add_one {q : ℚ} (h : q.den = 1) : (q + 1).den = 1 := by
  obtain ⟨k, rfl⟩ : ∃ k : ℤ, q = (k : ℚ) := ⟨q.num, ((Rat.den_eq_one_iff q).mp h).symm⟩
  rw [show ((k : ℚ) + 1) = ((k + 1 : ℤ) : ℚ) by push_cast; ring]
  exact Rat.den_intCast _

/-- Doubling an integral rational stays integral. -/
theorem den_mul_two {q : ℚ} (h : q.den = 1) : (q * 2).den = 1 := by
  obtain ⟨k, rfl⟩ : ∃ k : ℤ, q = (k : ℚ) := ⟨q.num, ((Rat.den_eq_one_iff q).mp h).symm⟩
  rw [show ((k : ℚ) * 2) = ((k * 2 : ℤ) : ℚ) by push_cast; ring]
  exact Rat.den_intCast _

/-- Claim C1 (refuted; the surrounding intent is plainly a slip in the
code).  The claim: in `bindChainB`, once a transform step yields Absent,
every subsequent transform is never invoked and the final result is
Absent, the check happening before each invocation.  In the source the
guard is `ret === undefined`, which never holds for a `MaybeInteger`
object, so the next transform IS invoked on the `undefined` value field:
chaining `divideBy3` (Absent on 8, second conjunct) with a transform
sending every argument to Present 5 returns Present 5, not Absent. -/
theorem C1_short_circuit_code_bug :
    bindChainB (some (wrapper (.num 8))) [divideBy3, fun _ => wrapper (.num 5)]
      = some ⟨true, .num 5⟩ ∧
    (divideBy3 (unwrapper (wrapper (.num 8)))).isInteger = false := by
  constructor
  · decide
  · have h8 : unwrapper (wrapper (.num 8)) = .num 8 := by decide
    have hden : ((8 : ℚ) / 3).den = 3 := by norm_num
    rw [h8]
    simp [divideBy3, isIntegerJS, jsDiv, hden, MaybeInteger.make]

/-- Claim C2 (refuted; same slip as C1).  The claim: `bindB` applied to an
Absent container returns Absent without invoking the transform.  The
source guard `mn === undefined` never holds for a `MaybeInteger` object,
so the transform IS invoked on the `undefined` value field: on the Absent
container `wrapper(3.14)` (second conjunct), a transform sending every
argument to Present 5 makes `bindB` return Present 5, not Absent. -/
theorem C2_bindB_code_bug :
    bindB (some (wrapper (.num (mkRat 157 50)))) (fun _ => wrapper (.num 5))
      = ⟨true, .num 5⟩ ∧
    (wrapper (.num (mkRat 157 50))).isInteger = false := by decide

/-- Claim C3, counterexample: the log of `bindC` is NOT exactly the
original annotation followed by the transform annotation — the source
appends the separator string " \n " as well.  With an empty original log
and a transform logging "L", the claim predicts the log "L". -/
theorem C3_log_counterexample :
    (bindC (wrap "x") (fun s => loggedValue.mk s "L")).log ≠ "" ++ "L" := by decide

/-- Claim C3, amended: `bindC a f` returns the transform value together
with the log `a.log ++ (f a.value).log ++ " \n "`, i.e. original
annotation, then transform annotation, then the three-character separator
(space, newline, space); binding two string-appending transforms yields
the two strings in call order, exactly once each, each followed by the
separator. -/
theorem C3_log_amended {T : Type} :
    (∀ (a : loggedValue T) (f : T → loggedValue T),
      bindC a f = ⟨(f a.value).value, (a.log ++ (f a.value).log) ++ " \n "⟩) ∧
    (∀ (v1 v2 v3 : T) (s1 s2 : String),
      bindC (bindC (wrap v1) (fun _ => ⟨v2, s1⟩)) (fun _ => ⟨v3, s2⟩)
        = ⟨v3, s1 ++ " \n " ++ s2 ++ " \n "⟩) := by
  constructor
  · intro a f; rfl
  · intro v1 v2 v3 s1 s2
    simp [bindC, wrap, String.append_assoc]

/-- Claim C4: `add1` on the non-integer 3.14 yields the Absent variant
rather than an error, and a subsequent `bindB` with any transform that
returns Absent on every value failing `Number.isInteger` (as all the
integer-domain transforms of the source do, `undefined` included) again
yields Absent.  Thrown errors have no representation here: the embedding
is total, as is the source, which contains no throw. -/
theorem C4_domain_violation_absent (t : JSVal → MaybeInteger)
    (ht : ∀ v, isIntegerJS v = false → t v = MaybeInteger.make .undefined) :
    add1 (.num (mkRat 157 50)) = MaybeInteger.make .undefined ∧
    bindB (some (add1 (.num (mkRat 157 50)))) t = MaybeInteger.make .undefined := by
  have h1 : add1 (.num (mkRat 157 50)) = MaybeInteger.make .undefined := by decide
  refine ⟨h1, ?_⟩
  rw [bindB, h1]
  have h2 : unwrapper (MaybeInteger.make .undefined) = .undefined := rfl
  rw [h2]
  exact ht _ rfl

/-- Witness for C4 at the transform `add1`. -/
theorem C4_domain_violation_absent_witness :
    add1 (.num (mkRat 157 50)) = MaybeInteger.make .undefined ∧
    bindB (some (add1 (.num (mkRat 157 50)))) add1 = MaybeInteger.make .undefined :=
  C4_domain_violation_absent add1 (by intro v hv; simp [add1, hv])

/-- Claim C5: `bindA` maps the transform over the array and flattens one
level, preserving order and duplicates (it coincides with flat-map);
`bindA ["start"]` with the two-output transform yields exactly
`["startA", "startB"]`, and chaining a three-output transform yields the
six elements in input order. -/
theorem C5_flatten_correctness :
    (∀ (l : List String) (f : String → List String), bindA l f = l.flatMap f) ∧
    bindA ["start"] (fun s => [s ++ "A", s ++ "B"]) = ["startA", "startB"] ∧
    bindA (bindA ["start"] (fun s => [s ++ "A", s ++ "B"]))
        (fun s => [s ++ "X", s ++ "Y", s ++ "Z"])
      = ["startAX", "startAY", "startAZ", "startBX", "startBY", "startBZ"] := by
  refine ⟨fun l f => ?_, by decide, by decide⟩
  simp [bindA, List.flatMap]

/-- Claim C6: chain-bind with an empty transform list returns the input
unchanged, for all three container kinds (`bindChainC` modelled from the
spec, as it is only announced in a source comment). -/
theorem C6_identity_law :
    (∀ x : List String, bindChainA x [] = x) ∧
    (∀ x : Option MaybeInteger, bindChainB x [] = x) ∧
    (∀ (T : Type) (x : loggedValue T), bindChainC x [] = x) :=
  ⟨fun _ => rfl, fun x => by cases x <;> rfl, fun _ _ => rfl⟩

/-- Claim C7: chaining through two one-step chains equals the two-step
chain, for all three container kinds and all transforms (for the optional
kind, on every actual container, i.e. every `MaybeInteger` object;
`bindChainC` modelled from the spec). -/
theorem C7_associativity :
    (∀ (x : List String) (f g : String → List String),
      bindChainA (bindChainA x [f]) [g] = bindChainA x [f, g]) ∧
    (∀ (m : MaybeInteger) (f g : JSVal → MaybeInteger),
      bindChainB (bindChainB (some m) [f]) [g] = bindChainB (some m) [f, g]) ∧
    (∀ (T : Type) (x : loggedValue T) (f g : T → loggedValue T),
      bindChainC (bindChainC x [f]) [g] = bindChainC x [f, g]) :=
  ⟨fun _ _ _ => rfl, fun _ _ _ => rfl, fun _ _ _ _ => rfl⟩

/-- Claim C8: the unit function `wrapper` itself validates the domain: a
number with a non-trivial denominator becomes the Absent variant (flag
false, no held value) already on entry, and an integral number becomes the
Present variant holding it. -/
theorem C8_wrapper_validates (q : ℚ) :
    (q.den ≠ 1 → wrapper (.num q) = ⟨false, .undefined⟩) ∧
    (q.den = 1 → wrapper (.num q) = ⟨true, .num q⟩) := by
  constructor <;> intro h <;>
    simp [wrapper, MaybeInteger.make, isIntegerJS, h]

/-- Witness for C8 at 3.14 (Absent on entry) and at 8 (Present). -/
theorem C8_wrapper_validates_witness :
    ((mkRat 157 50).den ≠ 1 ∧ wrapper (.num (mkRat 157 50)) = ⟨false, .undefined⟩) ∧
    ((8 : ℚ).den = 1 ∧ wrapper (.num 8) = ⟨true, .num 8⟩) :=
  ⟨⟨by decide, (C8_wrapper_validates (mkRat 157 50)).1 (by decide)⟩,
   ⟨by decide, (C8_wrapper_validates 8).2 (by decide)⟩⟩

/-- The `MaybeInteger` invariant of claim C9: the flag is true exactly
when the container holds an integral number, and a false flag means the
value field is the unset `undefined`. -/
def MaybeInv (m : MaybeInteger) : Prop :=
  (m.isInteger = true ↔ ∃ k : ℤ, m.value = .num (k : ℚ)) ∧
  (m.isInteger = false → m.value = .undefined)

/-- Every container built by the `MaybeInteger` constructor satisfies the
invariant. -/
theorem maybeInv_make (n : JSVal) : MaybeInv (MaybeInteger.make n) := by
  unfold MaybeInteger.make
  by_cases h : isIntegerJS n = true
  · rw [if_pos h]
    exact ⟨⟨fun _ => holdsInt_of_isIntegerJS h, fun _ => rfl⟩, by simp⟩
  · rw [if_neg h]
    refine ⟨⟨by simp, ?_⟩, fun _ => rfl⟩
    rintro ⟨k, hk⟩
    cases hk

theorem maybeInv_wrapper (v : JSVal) : MaybeInv (wrapper v) := by
  unfold wrapper
  by_cases h : isIntegerJS v <;> simp [h] <;> exact maybeInv_make _

theorem maybeInv_add1 (v : JSVal) : MaybeInv (add1 v) := by
  unfold add1
  by_cases h : isIntegerJS v <;> simp [h]
  · exact maybeInv_wrapper _
  · exact maybeInv_make _

theorem maybeInv_multiplyBy2 (v : JSVal) : MaybeInv (multiplyBy2 v) := by
  unfold multiplyBy2
  by_cases h : isIntegerJS v <;> simp [h]
  · exact maybeInv_wrapper _
  · exact maybeInv_make _

theorem maybeInv_divideBy2 (v : JSVal) : MaybeInv (divideBy2 v) := by
  unfold divideBy2
  by_cases h : (!isIntegerJS v || !isIntegerJS (jsDiv v 2)) = true <;> simp [h]
  · exact maybeInv_make _
  · exact maybeInv_wrapper _

theorem maybeInv_divideBy3 (v : JSVal) : MaybeInv (divideBy3 v) := by
  unfold divideBy3
  by_cases h : (!isIntegerJS v || !isIntegerJS (jsDiv v 3)) = true <;> simp [h]
  · exact maybeInv_make _
  · exact maybeInv_wrapper _

/-- Claim C9: every `MaybeInteger` produced by `wrapper`, the four
arithmetic transforms, `bindB` (under transforms that maintain the
invariant, as all of the above do), or `bindChainB` satisfies the
invariant `MaybeInv`: the flag is true exactly when an integral value is
held, and a false flag comes with an unset value field. -/
theorem C9_integer_invariant :
    (∀ v, MaybeInv (wrapper v)) ∧ (∀ v, MaybeInv (add1 v)) ∧
    (∀ v, MaybeInv (multiplyBy2 v)) ∧ (∀ v, MaybeInv (divideBy2 v)) ∧
    (∀ v, MaybeInv (divideBy3 v)) ∧
    (∀ (mn : Option MaybeInteger) (f : JSVal → MaybeInteger),
      (∀ v, MaybeInv (f v)) → MaybeInv (bindB mn f)) ∧
    (∀ (fs : List (JSVal → MaybeInteger)) (mn : Option MaybeInteger),
      (∀ f ∈ fs, ∀ v, MaybeInv (f v)) → (∀ m, mn = some m → MaybeInv m) →
      ∀ r, bindChainB mn fs = some r → MaybeInv r) := by
  refine ⟨maybeInv_wrapper, maybeInv_add1, maybeInv_multiplyBy2, maybeInv_divideBy2,
    maybeInv_divideBy3, ?_, ?_⟩
  · intro mn f hf
    cases mn with
    | none => exact maybeInv_make _
    | some m => exact hf _
  · intro fs
    induction fs with
    | nil =>
        intro mn _ hmn r hr
        cases mn with
        | none => cases hr
        | some m => exact (Option.some_inj.mp hr) ▸ hmn m rfl
    | cons f fs ih =>
        intro mn hfs hmn r hr
        cases mn with
        | none =>
            rw [bindChainB] at hr
            exact (Option.some_inj.mp hr) ▸ maybeInv_make _
        | some m =>
            rw [bindChainB] at hr
            refine ih _ (fun g hg => hfs g (List.mem_cons_of_mem _ hg)) ?_ r hr
            intro m' hm'
            exact (Option.some_inj.mp hm') ▸ hfs f (List.mem_cons_self _ _) _

/-- Witness for C9: the invariant at a concrete bind of `add1`. -/
theorem C9_integer_invariant_witness :
    MaybeInv (bindB (some (wrapper (.num 8))) add1) :=
  C9_integer_invariant.2.2.2.2.2.1 (some (wrapper (.num 8))) add1
    C9_integer_invariant.2.1

/-- The correspondence of claim C10 between the two optional
implementations: the Absent variant matches the `null` sentinel, and the
Present variant holding a number matches that number. -/
def corr (m : MaybeInteger) (o : Option ℚ) : Prop :=
  (m = ⟨false, .undefined⟩ ∧ o = none) ∨ (∃ q : ℚ, m = ⟨true, .num q⟩ ∧ o = some q)

/-- A single bind step preserves the correspondence whenever the matched
transforms agree on numbers and the class-side transform sends the unset
value to Absent. -/
theorem corr_step (m : MaybeInteger) (o : Option ℚ) (h : corr m o)
    (tMain : JSVal → MaybeInteger) (tNull : Option ℚ → Option ℚ)
    (hAbsent : tMain .undefined = ⟨false, .undefined⟩)
    (hNum : ∀ q : ℚ, corr (tMain (.num q)) (tNull (some q))) :
    corr (bindB (some m) tMain) (NullImpl.bindB o tNull) := by
  rcases h with ⟨hm, ho⟩ | ⟨q, hm, ho⟩
  · subst hm; subst ho
    exact Or.inl ⟨hAbsent, rfl⟩
  · subst hm; subst ho
    exact hNum q

theorem corr_add1 (q : ℚ) : corr (add1 (.num q)) (NullImpl.add1 (some q)) := by
  by_cases hq : q.den = 1
  · right
    refine ⟨q + 1, ?_, ?_⟩
    · simp [add1, isIntegerJS, jsAdd, wrapper, MaybeInteger.make, hq, den_add_one hq]
    · simp [NullImpl.add1, hq]
  · left
    exact ⟨by simp [add1, isIntegerJS, MaybeInteger.make, hq],
           by simp [NullImpl.add1, hq]⟩

theorem corr_multiplyBy2 (q : ℚ) :
    corr (multiplyBy2 (.num q)) (NullImpl.multiplyBy2 (some q)) := by
  by_cases hq : q.den = 1
  · right
    refine ⟨q * 2, ?_, ?_⟩
    · simp [multiplyBy2, isIntegerJS, jsMul, wrapper, MaybeInteger.make, hq,
        den_mul_two hq]
    · simp [NullImpl.multiplyBy2, hq]
  · left
    exact ⟨by simp [multiplyBy2, isIntegerJS, MaybeInteger.make, hq],
           by simp [NullImpl.multiplyBy2, hq]⟩

theorem corr_divideBy2 (q : ℚ) :
    corr (divideBy2 (.num q)) (NullImpl.divideBy2 (some q)) := by
  by_cases hq : q.den = 1
  · by_cases hq2 : (q / 2).den = 1
    · right
      refine ⟨q / 2, ?_, ?_⟩
      · simp [divideBy2, isIntegerJS, jsDiv, wrapper, MaybeInteger.make, hq, hq2]
      · simp [NullImpl.divideBy2, hq, hq2]
    · left
      exact ⟨by simp [divideBy2, isIntegerJS, jsDiv, MaybeInteger.make, hq, hq2],
             by simp [NullImpl.divideBy2, hq2]⟩
  · left
    exact ⟨by simp [divideBy2, isIntegerJS, jsDiv, MaybeInteger.make, hq],
           by simp [NullImpl.divideBy2, hq]⟩

/-- Claim C10: the `MaybeInteger`-based `bindB` of src/main.ts and the
null-sentinel `bindB` of src/unnamed/part_000 are extensionally
equivalent under the correspondence Absent to null and Present n to n,
for every corresponding input pair and each matched transform pair
(`add1`, `multiplyBy2`, `divideBy2`). -/
theorem C10_null_equivalence (m : MaybeInteger) (o : Option ℚ) (h : corr m o) :
    corr (bindB (some m) add1) (NullImpl.bindB o NullImpl.add1) ∧
    corr (bindB (some m) multiplyBy2) (NullImpl.bindB o NullImpl.multiplyBy2) ∧
    corr (bindB (some m) divideBy2) (NullImpl.bindB o NullImpl.divideBy2) :=
  ⟨corr_step m o h add1 NullImpl.add1 rfl corr_add1,
   corr_step m o h multiplyBy2 NullImpl.multiplyBy2 rfl corr_multiplyBy2,
   corr_step m o h divideBy2 NullImpl.divideBy2 rfl corr_divideBy2⟩

/-- Witness for C10 at the corresponding pair wrapper(8) and 8. -/
theorem C10_null_equivalence_witness :
    corr (wrapper (.num 8)) (some 8) ∧
    corr (bindB (some (wrapper (.num 8))) add1)
      (NullImpl.bindB (some 8) NullImpl.add1) := by
  have h : corr (wrapper (.num 8)) (some 8) := Or.inr ⟨8, by decide, rfl⟩
  exact ⟨h, (C10_null_equivalence _ _ h).1⟩
